import Mathlib

/-!
Verification development for the inventory reorder prediction pipeline
(src/src/App.js, with the earlier variant src/unnamed/part_000,
InventoryDashboard.jsx).

The numeric pipeline is shallowly embedded: JS numbers are modelled as
exact rationals, JS Math.round as the floor of x + 1/2 (which matches
JS round-half-up semantics), the two per-item Math.random() draws as
explicit rational parameters in [0,1), and the TensorFlow.js model as an
abstract function from a feature vector to the sigmoid probability read
by dataSync. React state is a record threaded explicitly through the
event handlers.
-/

/- ## Data model -/

/-- A raw catalog record as fetched from the store API: identifier,
title and unit price (src/src/App.js line 6: fields id, title, price). -/
structure RawCatalogItem where
  id : Int
  title : List Char
  price : Rat

/-- The augmented per-product record built by createAugmentedProducts
(src/src/App.js lines 12-21). The source field names are kept:
name (the truncated display title), mlFeatures (the feature vector
handed to the classifier), reorderPrediction (a string, initially
Pending). -/
structure InventoryRecord where
  id : Int
  name : List Char
  currentInventory : Int
  averageSalesPerWeek : Int
  daysToReplenish : Int
  reorderPrediction : String
  mlFeatures : List Int
deriving Repr

/-- JS Math.round for a rational argument: floor (x + 1/2). JS rounds
half-way cases toward positive infinity, which is exactly this.
Stated with the computable Rat.floor so that concrete instances reduce. -/
def jsRound (x : Rat) : Int := (x + 1/2).floor

/-- jsRound agrees with the mathematical floor of x + 1/2. -/
theorem jsRound_eq_floor (x : Rat) : jsRound x = Int.floor (x + 1/2) := by
  show (x + 1/2).floor = Int.floor (x + 1/2)
  rw [Rat.floor_def', Rat.floor_def]

/- ## FeatureSynthesizer: createAugmentedProducts -/

/-- The body of the map in createAugmentedProducts (src/src/App.js
lines 6-21; identical in src/unnamed/part_000 lines 7-20) for one raw
product. The two Math.random() calls of lines 9 and 10 are passed in
as r1 and r2. -/
def augmentProduct (p : RawCatalogItem) (r1 r2 : Rat) : InventoryRecord :=
  let baseInv : Int := jsRound (p.price * (5/2) + (p.id : Rat) * 5)
  let avgSales : Int := jsRound ((baseInv : Rat) * (1/10 + r1 * (2/10)))
  let leadTime : Int := jsRound (1 + r2 * 5)
  { id := p.id
  , name := if 40 < p.title.length then p.title.take 40 ++ ['.', '.', '.'] else p.title
  , currentInventory := baseInv
  , averageSalesPerWeek := avgSales
  , daysToReplenish := leadTime
  , reorderPrediction := "Pending"
  , mlFeatures := [baseInv, avgSales, leadTime] }

/-- createAugmentedProducts (src/src/App.js lines 5-22): maps
augmentProduct over the raw products, consuming one pair of random
draws per product. -/
def createAugmentedProducts (rawProducts : List RawCatalogItem)
    (draws : List (Rat × Rat)) : List InventoryRecord :=
  List.zipWith (fun p d => augmentProduct p d.1 d.2) rawProducts draws

/- ## ReorderClassifier: buildAndTrainModel -/

/-- The hard-coded training feature rows of buildAndTrainModel in
src/src/App.js lines 27-34 (tf.tensor2d argument). -/
def trainingFeatures : List (List Int) :=
  [[20, 50, 3], [5, 30, 5], [15, 40, 4], [8, 60, 2], [100, 10, 1], [2, 50, 6]]

/-- The hard-coded training label rows of src/src/App.js line 35. -/
def trainingLabels : List (List Int) :=
  [[0], [1], [0], [1], [0], [1]]

/-- The epochs option passed to model.fit in src/src/App.js line 50. -/
def fitEpochs : Nat := 200

/-- The shuffle option passed to model.fit in src/src/App.js line 51. -/
def fitShuffle : Bool := true

/-- The hard-coded training feature rows of the earlier variant
src/unnamed/part_000 (InventoryDashboard.jsx) lines 26-31. -/
def trainingFeaturesV0 : List (List Int) :=
  [[20, 50, 3], [5, 30, 5], [15, 40, 4], [8, 60, 2]]

/-- The hard-coded training label rows of src/unnamed/part_000 line 32. -/
def trainingLabelsV0 : List (List Int) :=
  [[0], [1], [0], [1]]

/-- The epochs option of model.fit in src/unnamed/part_000 line 47. -/
def fitEpochsV0 : Nat := 200

/-- The shuffle option of model.fit in src/unnamed/part_000 line 48. -/
def fitShuffleV0 : Bool := true

/-- A fitted TensorFlow.js model, abstracted to the function from a
feature vector to the sigmoid probability read through
res.dataSync()[0] (src/src/App.js lines 240-243). The actual numeric
fitting happens inside the tf.js library; only this input-output view
of the fitted weights is observable to the pipeline. -/
structure Model where
  predictProb : List Int → Rat

/-- A message shown by showMessage (src/src/App.js lines 160-163):
its text and its type tag (success, error, warning). -/
structure Message where
  text : String
  type : String
deriving Repr, DecidableEq

/-- The React state of InventoryDashboard relevant to the pipeline
(src/src/App.js lines 152-156): the item list, the isModelReady flag,
the trained model (null before training, modelled as Option), and the
totalReorder counter. -/
structure DashboardState where
  items : List InventoryRecord
  isModelReady : Bool
  tfModel : Option Model
  totalReorder : Nat

/-- The initial dashboard state after the mount effect has loaded the
catalog and stored the augmented items (src/src/App.js lines 152-156
for the useState initial values, lines 199-200 for setItems). -/
def initialState (rawProducts : List RawCatalogItem)
    (draws : List (Rat × Rat)) : DashboardState :=
  { items := createAugmentedProducts rawProducts draws
  , isModelReady := false
  , tfModel := none
  , totalReorder := 0 }

/-- Outcome of the awaited buildAndTrainModel call: either the fitted
model, or the error thrown by the numeric fitting. -/
inductive TrainResult where
  | success : Model → TrainResult
  | failure : String → TrainResult

/-- handleTrainModel (src/src/App.js lines 212-225): sets isModelReady
to false, shows a warning, then awaits buildAndTrainModel; on success
stores the model, sets isModelReady and shows a success message; on an
exception it only shows an error message, leaving tfModel untouched.
Returns the new state together with the messages shown. -/
def handleTrainModel (s : DashboardState) (r : TrainResult) :
    DashboardState × List Message :=
  let s1 := { s with isModelReady := false }
  match r with
  | .success m =>
      ({ s1 with tfModel := some m, isModelReady := true },
       [⟨"Training model... this will take a few seconds.", "warning"⟩,
        ⟨"Model trained successfully! Ready to predict.", "success"⟩])
  | .failure _ =>
      (s1,
       [⟨"Training model... this will take a few seconds.", "warning"⟩,
        ⟨"Error training model (check console).", "error"⟩])

/- ## handlePredict -/

/-- The body of the map in handlePredict (src/src/App.js lines
235-257) for one item: build the feature tensor from it.mlFeatures,
run the model, read the probability, and replace reorderPrediction by
REORDER when prob is at least 0.5 and No Reorder otherwise. -/
def predictItem (m : Model) (it : InventoryRecord) : InventoryRecord :=
  let prob := m.predictProb it.mlFeatures
  let suggestion := if (1 : Rat)/2 ≤ prob then "REORDER" else "No Reorder"
  { it with reorderPrediction := suggestion }

/-- One step of the map in handlePredict together with the running
reorderCount accumulator (src/src/App.js lines 234-257): the count is
incremented exactly when the suggestion is the string REORDER. -/
def predictStep (m : Model) (acc : List InventoryRecord × Nat)
    (it : InventoryRecord) : List InventoryRecord × Nat :=
  let r := predictItem m it
  (acc.1 ++ [r], if r.reorderPrediction == "REORDER" then acc.2 + 1 else acc.2)

/-- handlePredict (src/src/App.js lines 228-262): if tfModel is null,
show the warning and return with the state unchanged; otherwise map
predictItem over the items while counting REORDER suggestions, store
the updated items and the count, and show the completion message. -/
def handlePredict (s : DashboardState) : DashboardState × Option Message :=
  match s.tfModel with
  | none => (s, some ⟨"Please train the model first!", "warning"⟩)
  | some m =>
      let acc := s.items.foldl (predictStep m) ([], 0)
      ({ s with items := acc.1, totalReorder := acc.2 },
       some ⟨"Prediction complete. " ++ toString acc.2 ++
             " items flagged for reorder.", "success"⟩)

/- ## handlePredict with tensor lifetime tracking -/

/-- The per-item body of handlePredict (src/src/App.js lines 235-257),
instrumented with a counter of live (allocated, not yet disposed) tf
tensors. The forward argument models tfModel.predict followed by
res.dataSync()[0]: it either yields the probability or raises. The
code in order: tf.tensor2d allocates the features tensor (line 237);
tfModel.predict with the dataSync read runs (lines 240-243) and may
raise; only on the success path are features.dispose() and
res.dispose() reached (lines 246-247). On the error path the exception
propagates with the features tensor still live: there is no
try/finally around the body. An error result carries the live-tensor
count at the moment the call is abandoned. -/
def predictItemTracked (forward : List Int → Except String Rat)
    (it : InventoryRecord) (live : Nat) :
    Except (String × Nat) (InventoryRecord × Nat) :=
  let liveWithFeatures := live + 1
  match forward it.mlFeatures with
  | .error e => .error (e, liveWithFeatures)
  | .ok prob =>
      let liveWithRes := liveWithFeatures + 1
      let liveAfterDispose := liveWithRes - 2
      let suggestion := if (1 : Rat)/2 ≤ prob then "REORDER" else "No Reorder"
      .ok ({ it with reorderPrediction := suggestion }, liveAfterDispose)

/-- The items.map of handlePredict under the live-tensor counter:
process the items left to right, threading the counter, stopping at
the first raised error (src/src/App.js lines 235-257). -/
def handlePredictTracked (forward : List Int → Except String Rat) :
    List InventoryRecord → Nat → Except (String × Nat) (List InventoryRecord × Nat)
  | [], live => .ok ([], live)
  | it :: rest, live =>
      match predictItemTracked forward it live with
      | .error e => .error e
      | .ok (r, liveNext) =>
          match handlePredictTracked forward rest liveNext with
          | .error e => .error e
          | .ok (rs, liveEnd) => .ok (r :: rs, liveEnd)

/- ## Operation sequences over the dashboard state -/

/-- A pipeline operation the dashboard can perform after loading:
a training attempt (with its outcome) or a prediction pass. -/
inductive Op where
  | trainOp : TrainResult → Op
  | predictOp : Op

/-- Apply one operation to the dashboard state, dropping the messages. -/
def applyOp (s : DashboardState) (o : Op) : DashboardState :=
  match o with
  | .trainOp r => (handleTrainModel s r).1
  | .predictOp => (handlePredict s).1

/-- Run a sequence of operations from a given state. -/
def runOps (s : DashboardState) (ops : List Op) : DashboardState :=
  ops.foldl applyOp s

/- ## Helper lemmas -/

/-- The features invariant of the spec: the mlFeatures vector is
exactly the three derived quantities in the fixed column order. -/
def featuresInvariant (r : InventoryRecord) : Prop :=
  r.mlFeatures = [r.currentInventory, r.averageSalesPerWeek, r.daysToReplenish]

theorem augmentProduct_invariant (p : RawCatalogItem) (r1 r2 : Rat) :
    featuresInvariant (augmentProduct p r1 r2) := rfl

theorem predictItem_invariant (m : Model) (it : InventoryRecord)
    (h : featuresInvariant it) : featuresInvariant (predictItem m it) := h

theorem mem_createAugmentedProducts {rec : InventoryRecord}
    {rawProducts : List RawCatalogItem} {draws : List (Rat × Rat)}
    (h : rec ∈ createAugmentedProducts rawProducts draws) :
    ∃ (p : RawCatalogItem) (d : Rat × Rat), rec = augmentProduct p d.1 d.2 := by
  induction rawProducts generalizing draws with
  | nil => simp [createAugmentedProducts] at h
  | cons p ps ih =>
      cases draws with
      | nil => simp [createAugmentedProducts] at h
      | cons d ds =>
          simp only [createAugmentedProducts, List.zipWith_cons_cons,
            List.mem_cons] at h
          rcases h with h | h
          · exact ⟨p, d, h⟩
          · exact ih h

/-- Evaluating the foldl of handlePredict: it appends the mapped items
and adds the number of REORDER suggestions to the accumulator. -/
theorem foldl_predictStep (m : Model) (items l : List InventoryRecord) (n : Nat) :
    items.foldl (predictStep m) (l, n) =
      (l ++ items.map (predictItem m),
       n + items.countP (fun it => (predictItem m it).reorderPrediction == "REORDER")) := by
  induction items generalizing l n with
  | nil => simp
  | cons it rest ih =>
      simp only [List.foldl_cons, List.map_cons, List.countP_cons, predictStep, ih]
      by_cases h : (predictItem m it).reorderPrediction == "REORDER"
      · simp [h]
        omega
      · simp [h]

theorem handlePredict_items (s : DashboardState) (m : Model)
    (hm : s.tfModel = some m) :
    (handlePredict s).1.items = s.items.map (predictItem m) ∧
    (handlePredict s).1.totalReorder =
      s.items.countP (fun it => (predictItem m it).reorderPrediction == "REORDER") ∧
    (handlePredict s).1.tfModel = s.tfModel ∧
    (handlePredict s).1.isModelReady = s.isModelReady := by
  simp [handlePredict, hm, foldl_predictStep]

theorem applyOp_tfModel_stable (s : DashboardState) (o : Op)
    (h : s.tfModel ≠ none) : (applyOp s o).tfModel ≠ none := by
  cases o with
  | trainOp r =>
      cases r with
      | success m => simp [applyOp, handleTrainModel]
      | failure e => simpa [applyOp, handleTrainModel] using h
  | predictOp =>
      cases hm : s.tfModel with
      | none => exact absurd hm h
      | some m =>
          have := (handlePredict_items s m hm).2.2.1
          simp [applyOp, this, hm]

theorem runOps_tfModel_stable (ops : List Op) (s : DashboardState)
    (h : s.tfModel ≠ none) : (runOps s ops).tfModel ≠ none := by
  induction ops generalizing s with
  | nil => exact h
  | cons o rest ih =>
      exact ih (applyOp s o) (applyOp_tfModel_stable s o h)

theorem applyOp_items_invariant (s : DashboardState) (o : Op)
    (h : ∀ rec ∈ s.items, featuresInvariant rec) :
    ∀ rec ∈ (applyOp s o).items, featuresInvariant rec := by
  cases o with
  | trainOp r =>
      cases r with
      | success m => simpa [applyOp, handleTrainModel] using h
      | failure e => simpa [applyOp, handleTrainModel] using h
  | predictOp =>
      cases hm : s.tfModel with
      | none =>
          intro rec hrec
          simp only [applyOp, handlePredict, hm] at hrec
          exact h rec hrec
      | some m =>
          intro rec hrec
          simp only [applyOp] at hrec
          rw [(handlePredict_items s m hm).1] at hrec
          rcases List.mem_map.mp hrec with ⟨it, hit, rfl⟩
          exact predictItem_invariant m it (h it hit)

theorem runOps_items_invariant (ops : List Op) (s : DashboardState)
    (h : ∀ rec ∈ s.items, featuresInvariant rec) :
    ∀ rec ∈ (runOps s ops).items, featuresInvariant rec := by
  induction ops generalizing s with
  | nil => exact h
  | cons o rest ih =>
      exact ih (applyOp s o) (applyOp_items_invariant s o h)

/- ## Claim theorems -/

/-- C1: every InventoryRecord produced by createAugmentedProducts has
mlFeatures equal to the ordered triple of currentInventory,
averageSalesPerWeek and daysToReplenish, and every record the
dashboard ever holds (hence every record whose features are handed to
the classifier) after any sequence of train and predict operations
still satisfies this equality. -/
theorem features_tuple_invariant :
    (∀ (p : RawCatalogItem) (r1 r2 : Rat),
        featuresInvariant (augmentProduct p r1 r2)) ∧
    (∀ (rawProducts : List RawCatalogItem) (draws : List (Rat × Rat))
        (ops : List Op) (rec : InventoryRecord),
        rec ∈ (runOps (initialState rawProducts draws) ops).items →
        featuresInvariant rec) := by
  refine ⟨augmentProduct_invariant, ?_⟩
  intro rawProducts draws ops rec hrec
  refine runOps_items_invariant ops _ ?_ rec hrec
  intro r hr
  rcases mem_createAugmentedProducts hr with ⟨p, d, rfl⟩
  exact augmentProduct_invariant p d.1 d.2

/-- C1 witness: the invariant instantiated on a concrete one-product
catalog and the empty operation sequence. -/
theorem features_tuple_invariant_witness :
    featuresInvariant (augmentProduct ⟨1, ['a'], 10⟩ 0 0) := by
  refine features_tuple_invariant.2 [⟨1, ['a'], 10⟩] [(0, 0)] [] _ ?_
  simp [runOps, initialState, createAugmentedProducts]

/-- C2 counterexample: in the buildAndTrainModel of
src/unnamed/part_000 (cited by the claim) the hard-coded dataset has 4
examples, not 6. -/
theorem trainingSet_size_counterexample :
    ¬ (trainingFeaturesV0.length = 6 ∧ trainingLabelsV0.length = 6) := by
  decide

/-- C2 amended: buildAndTrainModel in src/src/App.js fits on exactly 6
hard-coded labeled examples of three features each with labels in 0 or
1, for 200 epochs with reshuffling each epoch; the variant in
src/unnamed/part_000 uses the same 200-epoch shuffled configuration
but only 4 hard-coded examples. -/
theorem trainingSet_and_fit_config :
    trainingFeatures.length = 6 ∧ trainingLabels.length = 6 ∧
    trainingFeatures.all (fun row => row.length == 3) = true ∧
    trainingLabels.all (fun l => l == [0] || l == [1]) = true ∧
    fitEpochs = 200 ∧ fitShuffle = true ∧
    trainingFeaturesV0.length = 4 ∧ trainingLabelsV0.length = 4 ∧
    trainingFeaturesV0.all (fun row => row.length == 3) = true ∧
    trainingLabelsV0.all (fun l => l == [0] || l == [1]) = true ∧
    fitEpochsV0 = 200 ∧ fitShuffleV0 = true := by
  decide

/-- C6: for every raw product and every pair of uniform draws in
[0,1), the produced daysToReplenish lies in the closed interval
[1, 6] (it is an integer by construction). -/
theorem daysToReplenish_range (p : RawCatalogItem) (r1 r2 : Rat)
    (h0 : 0 ≤ r2) (h1 : r2 < 1) :
    1 ≤ (augmentProduct p r1 r2).daysToReplenish ∧
    (augmentProduct p r1 r2).daysToReplenish ≤ 6 := by
  have hval : (augmentProduct p r1 r2).daysToReplenish = jsRound (1 + r2 * 5) := rfl
  rw [hval, jsRound_eq_floor]
  constructor
  · exact Int.le_floor.mpr (by push_cast; linarith)
  · have h7 : Int.floor ((1 : Rat) + r2 * 5 + 1/2) < 7 :=
      Int.floor_lt.mpr (by push_cast; linarith)
    omega

/-- C6 witness: the bounds at a concrete product and concrete draws. -/
theorem daysToReplenish_range_witness :
    1 ≤ (augmentProduct ⟨1, ['a'], 10⟩ 0 (1/2)).daysToReplenish ∧
    (augmentProduct ⟨1, ['a'], 10⟩ 0 (1/2)).daysToReplenish ≤ 6 :=
  daysToReplenish_range ⟨1, ['a'], 10⟩ 0 (1/2) (by norm_num) (by norm_num)

/-- C5: for every raw product with the non-negative price and
identifier the data model prescribes, and for every uniform draw in
[0,1), the produced averageSalesPerWeek lies between the rounded 10
percent and the rounded 30 percent of currentInventory. -/
theorem averageSalesPerWeek_range (p : RawCatalogItem) (r1 r2 : Rat)
    (hprice : 0 ≤ p.price) (hid : 0 ≤ p.id) (h0 : 0 ≤ r1) (h1 : r1 < 1) :
    jsRound (((augmentProduct p r1 r2).currentInventory : Rat) * (1/10))
        ≤ (augmentProduct p r1 r2).averageSalesPerWeek ∧
    (augmentProduct p r1 r2).averageSalesPerWeek
        ≤ jsRound (((augmentProduct p r1 r2).currentInventory : Rat) * (3/10)) := by
  have hinv : (augmentProduct p r1 r2).currentInventory
      = jsRound (p.price * (5/2) + (p.id : Rat) * 5) := rfl
  have havg : (augmentProduct p r1 r2).averageSalesPerWeek
      = jsRound (((augmentProduct p r1 r2).currentInventory : Rat)
          * (1/10 + r1 * (2/10))) := rfl
  set B := (augmentProduct p r1 r2).currentInventory with hBdef
  have hidQ : (0 : Rat) ≤ (p.id : Rat) := by exact_mod_cast hid
  have hBnonneg : (0 : Int) ≤ B := by
    rw [hinv, jsRound_eq_floor]
    refine Int.le_floor.mpr ?_
    push_cast
    have h5 : (0 : Rat) ≤ p.price * (5/2) := by positivity
    have h6 : (0 : Rat) ≤ (p.id : Rat) * 5 := by positivity
    linarith
  have hBQ : (0 : Rat) ≤ (B : Rat) := by exact_mod_cast hBnonneg
  have hlow : (B : Rat) * (1/10) ≤ (B : Rat) * (1/10 + r1 * (2/10)) := by
    refine mul_le_mul_of_nonneg_left ?_ hBQ
    nlinarith
  have hhigh : (B : Rat) * (1/10 + r1 * (2/10)) ≤ (B : Rat) * (3/10) := by
    refine mul_le_mul_of_nonneg_left ?_ hBQ
    nlinarith
  rw [havg]
  constructor
  · rw [jsRound_eq_floor, jsRound_eq_floor]
    exact Int.floor_le_floor (by linarith)
  · rw [jsRound_eq_floor, jsRound_eq_floor]
    exact Int.floor_le_floor (by linarith)

/-- C5 witness: the bounds at a concrete product and concrete draws. -/
theorem averageSalesPerWeek_range_witness :
    jsRound (((augmentProduct ⟨1, ['a'], 10⟩ (1/2) 0).currentInventory : Rat) * (1/10))
        ≤ (augmentProduct ⟨1, ['a'], 10⟩ (1/2) 0).averageSalesPerWeek ∧
    (augmentProduct ⟨1, ['a'], 10⟩ (1/2) 0).averageSalesPerWeek
        ≤ jsRound (((augmentProduct ⟨1, ['a'], 10⟩ (1/2) 0).currentInventory : Rat) * (3/10)) :=
  averageSalesPerWeek_range ⟨1, ['a'], 10⟩ (1/2) 0
    (by norm_num) (by norm_num) (by norm_num) (by norm_num)

/-- C9: the display name is the first 40 characters of the title
followed by three dots when the title is longer than 40 characters,
and the title unchanged otherwise; a 45-character title therefore
yields a 43-character display name. -/
theorem displayName_truncation (p : RawCatalogItem) (r1 r2 : Rat) :
    (40 < p.title.length →
        (augmentProduct p r1 r2).name = p.title.take 40 ++ ['.', '.', '.']) ∧
    (p.title.length ≤ 40 → (augmentProduct p r1 r2).name = p.title) ∧
    (p.title.length = 45 → (augmentProduct p r1 r2).name.length = 43) := by
  have hname : (augmentProduct p r1 r2).name
      = if 40 < p.title.length then p.title.take 40 ++ ['.', '.', '.'] else p.title := rfl
  refine ⟨?_, ?_, ?_⟩ <;> intro h
  · rw [hname, if_pos h]
  · rw [hname, if_neg (by omega)]
  · rw [hname, if_pos (by omega)]
    simp [List.length_take, h]

/-- C9 witness: a concrete 45-character title gives a 43-character
display name, and a concrete short title is unchanged. -/
theorem displayName_truncation_witness :
    (augmentProduct ⟨1, List.replicate 45 'a', 10⟩ 0 0).name.length = 43 ∧
    (augmentProduct ⟨2, ['h', 'i'], 10⟩ 0 0).name = ['h', 'i'] :=
  ⟨(displayName_truncation ⟨1, List.replicate 45 'a', 10⟩ 0 0).2.2 (by decide),
   (displayName_truncation ⟨2, ['h', 'i'], 10⟩ 0 0).2.1 (by decide)⟩

/-- C7: in the prediction pass each item's suggestion is the string
REORDER exactly when the model probability is at least 1/2 and the
string No Reorder otherwise, and the stored totalReorder equals the
number of updated records flagged REORDER. -/
theorem decision_threshold_and_count (s : DashboardState) (m : Model)
    (hm : s.tfModel = some m) :
    (handlePredict s).1.items = s.items.map (predictItem m) ∧
    (∀ it : InventoryRecord,
        ((predictItem m it).reorderPrediction = "REORDER" ↔
            (1 : Rat)/2 ≤ m.predictProb it.mlFeatures) ∧
        ((predictItem m it).reorderPrediction = "No Reorder" ↔
            ¬ (1 : Rat)/2 ≤ m.predictProb it.mlFeatures)) ∧
    (handlePredict s).1.totalReorder =
      (handlePredict s).1.items.countP
        (fun r => r.reorderPrediction == "REORDER") := by
  obtain ⟨hitems, hcount, -, -⟩ := handlePredict_items s m hm
  refine ⟨hitems, ?_, ?_⟩
  · intro it
    by_cases h : (1 : Rat)/2 ≤ m.predictProb it.mlFeatures <;>
      simp [predictItem, h]
  · rw [hitems, hcount, List.countP_map]
    rfl

/-- C7 witness: a one-item state under a concrete model with
probability 7/10 is flagged REORDER and counted once. -/
theorem decision_threshold_and_count_witness :
    (handlePredict ⟨[⟨1, ['a'], 30, 3, 1, "Pending", [30, 3, 1]⟩], true,
        some ⟨fun _ => 7/10⟩, 0⟩).1.items =
      [⟨1, ['a'], 30, 3, 1, "Pending", [30, 3, 1]⟩].map (predictItem ⟨fun _ => 7/10⟩) ∧
    (∀ it : InventoryRecord,
        ((predictItem ⟨fun _ => 7/10⟩ it).reorderPrediction = "REORDER" ↔
            (1 : Rat)/2 ≤ (7 : Rat)/10) ∧
        ((predictItem ⟨fun _ => 7/10⟩ it).reorderPrediction = "No Reorder" ↔
            ¬ (1 : Rat)/2 ≤ (7 : Rat)/10)) ∧
    (handlePredict ⟨[⟨1, ['a'], 30, 3, 1, "Pending", [30, 3, 1]⟩], true,
        some ⟨fun _ => 7/10⟩, 0⟩).1.totalReorder =
      (handlePredict ⟨[⟨1, ['a'], 30, 3, 1, "Pending", [30, 3, 1]⟩], true,
        some ⟨fun _ => 7/10⟩, 0⟩).1.items.countP
        (fun r => r.reorderPrediction == "REORDER") :=
  decision_threshold_and_count
    ⟨[⟨1, ['a'], 30, 3, 1, "Pending", [30, 3, 1]⟩], true, some ⟨fun _ => 7/10⟩, 0⟩
    ⟨fun _ => 7/10⟩ rfl

/-- C8: invoking handlePredict while tfModel is still null leaves the
whole dashboard state (classifier state included) unchanged and
signals the train-first warning instead of defaulting to any
prediction. -/
theorem predict_untrained_guard (s : DashboardState) (h : s.tfModel = none) :
    handlePredict s = (s, some ⟨"Please train the model first!", "warning"⟩) := by
  simp [handlePredict, h]

/-- C8 witness: the guard on a concrete fresh state. -/
theorem predict_untrained_guard_witness :
    handlePredict ⟨[], false, none, 0⟩ =
      (⟨[], false, none, 0⟩, some ⟨"Please train the model first!", "warning"⟩) :=
  predict_untrained_guard ⟨[], false, none, 0⟩ rfl

/-- C10: the prediction pass keeps the item list length and, position
by position, every field except reorderPrediction — id, name,
currentInventory, averageSalesPerWeek, daysToReplenish and mlFeatures
are all carried over unchanged from the input record. -/
theorem predict_frame (s : DashboardState) (m : Model)
    (hm : s.tfModel = some m) :
    (handlePredict s).1.items.length = s.items.length ∧
    ∀ i : Nat,
      ((handlePredict s).1.items[i]?).map (fun r => r.id)
          = (s.items[i]?).map (fun r => r.id) ∧
      ((handlePredict s).1.items[i]?).map (fun r => r.name)
          = (s.items[i]?).map (fun r => r.name) ∧
      ((handlePredict s).1.items[i]?).map (fun r => r.currentInventory)
          = (s.items[i]?).map (fun r => r.currentInventory) ∧
      ((handlePredict s).1.items[i]?).map (fun r => r.averageSalesPerWeek)
          = (s.items[i]?).map (fun r => r.averageSalesPerWeek) ∧
      ((handlePredict s).1.items[i]?).map (fun r => r.daysToReplenish)
          = (s.items[i]?).map (fun r => r.daysToReplenish) ∧
      ((handlePredict s).1.items[i]?).map (fun r => r.mlFeatures)
          = (s.items[i]?).map (fun r => r.mlFeatures) := by
  have hitems := (handlePredict_items s m hm).1
  rw [hitems]
  refine ⟨List.length_map _ _, ?_⟩
  intro i
  refine ⟨?_, ?_, ?_, ?_, ?_, ?_⟩ <;>
    · rw [List.getElem?_map, Option.map_map]
      rfl

/-- C10 witness: the frame condition on a concrete one-item state. -/
theorem predict_frame_witness :
    (handlePredict ⟨[⟨1, ['a'], 30, 3, 1, "Pending", [30, 3, 1]⟩], true,
        some ⟨fun _ => 7/10⟩, 0⟩).1.items.length =
      ([⟨1, ['a'], 30, 3, 1, "Pending", [30, 3, 1]⟩] : List InventoryRecord).length :=
  (predict_frame
    ⟨[⟨1, ['a'], 30, 3, 1, "Pending", [30, 3, 1]⟩], true, some ⟨fun _ => 7/10⟩, 0⟩
    ⟨fun _ => 7/10⟩ rfl).1

/-- C3: when the awaited buildAndTrainModel call fails on an untrained
dashboard, tfModel stays null, the items and counter are untouched, no
partial model is stored, and the error message is surfaced; moreover,
once tfModel holds a trained model, no sequence of train or predict
operations (including failing retrains) ever brings it back to null. -/
theorem train_failure_keeps_untrained :
    (∀ (s : DashboardState) (e : String), s.tfModel = none →
        (handleTrainModel s (.failure e)).1.tfModel = none ∧
        (handleTrainModel s (.failure e)).1.items = s.items ∧
        (handleTrainModel s (.failure e)).1.totalReorder = s.totalReorder ∧
        (handleTrainModel s (.failure e)).1.isModelReady = false ∧
        Message.mk "Error training model (check console)." "error"
          ∈ (handleTrainModel s (.failure e)).2) ∧
    (∀ (s : DashboardState) (ops : List Op), s.tfModel ≠ none →
        (runOps s ops).tfModel ≠ none) := by
  constructor
  · intro s e h
    refine ⟨?_, rfl, rfl, rfl, ?_⟩
    · simpa [handleTrainModel] using h
    · simp [handleTrainModel]
  · intro s ops h
    exact runOps_tfModel_stable ops s h

/-- C3 witness: the failure branch on a concrete fresh state, and the
stability of a concrete trained state under a failing retrain followed
by a predict pass. -/
theorem train_failure_keeps_untrained_witness :
    ((handleTrainModel ⟨[], false, none, 0⟩ (.failure "oom")).1.tfModel = none ∧
     (handleTrainModel ⟨[], false, none, 0⟩ (.failure "oom")).1.items = ([] : List InventoryRecord) ∧
     (handleTrainModel ⟨[], false, none, 0⟩ (.failure "oom")).1.totalReorder = 0 ∧
     (handleTrainModel ⟨[], false, none, 0⟩ (.failure "oom")).1.isModelReady = false ∧
     Message.mk "Error training model (check console)." "error"
       ∈ (handleTrainModel ⟨[], false, none, 0⟩ (.failure "oom")).2) ∧
    (runOps ⟨[], true, some ⟨fun _ => 7/10⟩, 0⟩
        [.trainOp (.failure "oom"), .predictOp]).tfModel ≠ none :=
  ⟨train_failure_keeps_untrained.1 ⟨[], false, none, 0⟩ "oom" rfl,
   train_failure_keeps_untrained.2 ⟨[], true, some ⟨fun _ => 7/10⟩, 0⟩
     [.trainOp (.failure "oom"), .predictOp] (by simp)⟩

/-- In predictItemTracked a successful forward pass always returns
with the live-tensor count restored to its value at entry. -/
theorem predictItemTracked_ok_live (forward : List Int → Except String Rat)
    (it : InventoryRecord) (live : Nat) (r : InventoryRecord) (liveOut : Nat)
    (h : predictItemTracked forward it live = .ok (r, liveOut)) :
    liveOut = live := by
  unfold predictItemTracked at h
  cases hf : forward it.mlFeatures with
  | error e => rw [hf] at h; simp at h
  | ok prob =>
      rw [hf] at h
      simp at h
      omega

/-- C4 counterexample: with a forward pass that raises (for example on
resource exhaustion), the predict body abandons the call with the
features tensor still live — one transient buffer survives the call
instead of zero, because src/src/App.js lines 237-247 have no
try/finally around predict and dispose. -/
theorem predict_buffer_leak_counterexample :
    predictItemTracked (fun _ => .error "Out of memory")
        ⟨1, ['a'], 30, 3, 1, "Pending", [30, 3, 1]⟩ 0 =
      .error ("Out of memory", 1) ∧ (1 : Nat) ≠ 0 :=
  ⟨rfl, by decide⟩

/-- C4 amended: on every predict call whose forward pass succeeds,
both per-call tensors are disposed before the call returns, so the
live-buffer count at exit equals the count at entry; hence after any
number of successful predict calls the count attributable to the
classifier is back to its initial value (zero when it started at
zero). When the forward pass raises, the features tensor is not
released. -/
theorem predict_buffer_release_on_success :
    (∀ (forward : List Int → Except String Rat) (it : InventoryRecord)
        (live : Nat) (prob : Rat), forward it.mlFeatures = .ok prob →
        predictItemTracked forward it live =
          .ok ({ it with reorderPrediction :=
                  if (1 : Rat)/2 ≤ prob then "REORDER" else "No Reorder" }, live)) ∧
    (∀ (forward : List Int → Except String Rat) (items : List InventoryRecord)
        (live : Nat) (out : List InventoryRecord × Nat),
        handlePredictTracked forward items live = .ok out → out.2 = live) := by
  constructor
  · intro forward it live prob h
    unfold predictItemTracked
    rw [h]
    simp
  · intro forward items
    induction items with
    | nil =>
        intro live out h
        simp only [handlePredictTracked] at h
        injection h with h
        rw [← h]
    | cons it rest ih =>
        intro live out h
        unfold handlePredictTracked at h
        split at h
        · simp at h
        · rename_i r liveNext heq
          split at h
          · simp at h
          · rename_i rs liveEnd heq2
            injection h with h
            have e1 := predictItemTracked_ok_live forward it live r liveNext heq
            have e2 := ih liveNext (rs, liveEnd) heq2
            simp at e2
            rw [← h]
            simp
            omega

/-- C4 witness: a successful forward pass at a concrete item and a
nonzero entry count returns with the same count, and a concrete
two-item tracked pass that ends in ok keeps the entry count. -/
theorem predict_buffer_release_on_success_witness :
    predictItemTracked (fun _ => .ok (7/10))
        ⟨1, ['a'], 30, 3, 1, "Pending", [30, 3, 1]⟩ 5 =
      .ok ({ InventoryRecord.mk 1 ['a'] 30 3 1 "Pending" [30, 3, 1] with
              reorderPrediction :=
                if (1 : Rat)/2 ≤ (7 : Rat)/10 then "REORDER" else "No Reorder" }, 5) ∧
    ((handlePredictTracked (fun _ => .ok (7/10))
        [⟨1, ['a'], 30, 3, 1, "Pending", [30, 3, 1]⟩] 0).map
          (fun out => out.2) = .ok 0) := by
  constructor
  · exact predict_buffer_release_on_success.1 (fun _ => .ok (7/10))
      ⟨1, ['a'], 30, 3, 1, "Pending", [30, 3, 1]⟩ 5 (7/10) rfl
  · have h1 := predict_buffer_release_on_success.1 (fun _ => .ok (7/10))
      ⟨1, ['a'], 30, 3, 1, "Pending", [30, 3, 1]⟩ 0 (7/10) rfl
    have h2 : handlePredictTracked (fun _ => .ok (7/10))
        [⟨1, ['a'], 30, 3, 1, "Pending", [30, 3, 1]⟩] 0 =
        .ok ([{ InventoryRecord.mk 1 ['a'] 30 3 1 "Pending" [30, 3, 1] with
                reorderPrediction :=
                  if (1 : Rat)/2 ≤ (7 : Rat)/10 then "REORDER" else "No Reorder" }], 0) := by
      unfold handlePredictTracked
      rw [h1]
      rfl
    rw [h2]
    rfl
